import Mathlib

/-!
Verification of the stars-export-carla map rasterizer.

This file shallowly embeds the parts of the repository that the verified
properties are about:

* `carla_data_classes/data_classes.py`: the data model (`DataLocation`,
  `DataLaneMidpoint`, `DataLandmark`, `DataLane`, `DataRoad`, `DataBlock`,
  `DataContactArea`) and `DataContactArea.from_lanes`.
* `helpers/map_rasterizer.py`: `get_data_blocks`, `add_landmarks_to_lanes`,
  `is_lane_valid_for_landmark`, `get_specific_road_from_blocks`,
  `get_intersection_of_lanes`, `get_intersect`, `is_between`,
  `get_all_waypoints_for_lane`, `get_length_of_lane`, `save_data_blocks`,
  `is_actor_in_block`, `get_best_block_for_actor`.

Python floats are modelled as exact rationals (`ℚ`); Python ints as `Int`.
Calls into the external CARLA map service (waypoint generation, stepping,
junction enumeration, landmark listing) are modelled as explicit input data:
the functions under verification receive the values those calls would
return.  In-place mutation of the Python object graph is modelled by
functional update, with comments at the points where aliasing in the Python
code is observable.
-/

/-- `DataLocation` from `data_classes.py`: a point with x, y, z coordinates. -/
structure DataLocation where
  x : ℚ
  y : ℚ
  z : ℚ
deriving DecidableEq, Repr

instance : Inhabited DataLocation := ⟨⟨0, 0, 0⟩⟩

/-- `DataRotation` from `data_classes.py`: pitch, yaw, roll. -/
structure DataRotation where
  pitch : ℚ
  yaw : ℚ
  roll : ℚ
deriving DecidableEq, Repr

instance : Inhabited DataRotation := ⟨⟨0, 0, 0⟩⟩

/-- `DataLaneMidpoint` from `data_classes.py`. -/
structure DataLaneMidpoint where
  lane_id : Int
  road_id : Int
  distance_to_start : ℚ
  location : DataLocation
  rotation : DataRotation
deriving DecidableEq, Repr

instance : Inhabited DataLaneMidpoint := ⟨⟨0, 0, 0, default, default⟩⟩

/-- `DataLandmark` from `data_classes.py`, restricted to the fields the
verified properties mention (`id`, `road_id`, `s`); the remaining fields are
copied verbatim by `get_data_landmark_for_landmark` and never consulted. -/
structure DataLandmark where
  id : Int
  road_id : Int
  s : ℚ
deriving DecidableEq, Repr

/-- `DataLane` from `data_classes.py`, restricted to the fields the verified
properties consult: identity, length, midpoints and attached landmarks. -/
structure DataLane where
  road_id : Int
  lane_id : Int
  lane_length : ℚ
  lane_midpoints : List DataLaneMidpoint
  landmarks : List DataLandmark
deriving DecidableEq, Repr

/-- `DataRoad` from `data_classes.py` (the `is_junction` flag is not consulted
by any verified property and is omitted). -/
structure DataRoad where
  road_id : Int
  lanes : List DataLane
deriving DecidableEq, Repr

/-- `DataBlock` from `data_classes.py` (its string `id` is not consulted by
any verified property and is omitted). -/
structure DataBlock where
  roads : List DataRoad
deriving DecidableEq, Repr

/-- `CONTACT_AREA_MARGIN` from `data_classes.py`. -/
def CONTACT_AREA_MARGIN : ℚ := 3

/-- `DataContactArea` from `data_classes.py`. -/
structure DataContactArea where
  id : String
  contact_location : DataLocation
  lane_1_road_id : Int
  lane_1_id : Int
  lane_1_start_pos : ℚ
  lane_1_end_pos : ℚ
  lane_2_road_id : Int
  lane_2_id : Int
  lane_2_start_pos : ℚ
  lane_2_end_pos : ℚ
deriving DecidableEq, Repr

/-- The f-string `"{r1}_{l1}+{r2}_{l2}"` building the contact-area id in
`DataContactArea.from_lanes`. -/
def contactAreaId (r1 l1 r2 l2 : Int) : String :=
  toString r1 ++ "_" ++ toString l1 ++ "+" ++ toString r2 ++ "_" ++ toString l2

namespace DataContactArea

/-- `DataContactArea.from_lanes` from `data_classes.py`: swaps the two lanes
when `lane_2.road_id < lane_1.road_id`, builds the id from the (possibly
swapped) road and lane ids, and clamps a ±`CONTACT_AREA_MARGIN` window around
each crossing distance to `[0, lane_length]`. -/
def from_lanes (contact_location : DataLocation) (lane_1 : DataLane)
    (start_pos_lane_1 : ℚ) (lane_2 : DataLane) (start_pos_lane_2 : ℚ) :
    DataContactArea :=
  -- Python reassigns the four parameters when the swap triggers; model the
  -- reassigned values directly.
  let l1 := if lane_2.road_id < lane_1.road_id then lane_2 else lane_1
  let l2 := if lane_2.road_id < lane_1.road_id then lane_1 else lane_2
  let s1 := if lane_2.road_id < lane_1.road_id then start_pos_lane_2 else start_pos_lane_1
  let s2 := if lane_2.road_id < lane_1.road_id then start_pos_lane_1 else start_pos_lane_2
  { id := contactAreaId l1.road_id l1.lane_id l2.road_id l2.lane_id
    contact_location := contact_location
    lane_1_road_id := l1.road_id
    lane_1_id := l1.lane_id
    lane_1_start_pos := max 0 (s1 - CONTACT_AREA_MARGIN)
    lane_1_end_pos := min l1.lane_length (s1 + CONTACT_AREA_MARGIN)
    lane_2_road_id := l2.road_id
    lane_2_id := l2.lane_id
    lane_2_start_pos := max 0 (s2 - CONTACT_AREA_MARGIN)
    lane_2_end_pos := min l2.lane_length (s2 + CONTACT_AREA_MARGIN) }

end DataContactArea

/-- For a crossing distance inside `[0, L]` the clamped window
`[max 0 (d - 3), min L (d + 3)]` is well formed and stays inside `[0, L]`. -/
theorem contact_window_wf (d L : ℚ) (h0 : 0 ≤ d) (hL : d ≤ L) :
    0 ≤ max 0 (d - CONTACT_AREA_MARGIN) ∧
      max 0 (d - CONTACT_AREA_MARGIN) ≤ min L (d + CONTACT_AREA_MARGIN) ∧
      min L (d + CONTACT_AREA_MARGIN) ≤ L := by
  refine ⟨le_max_left _ _, ?_, min_le_left _ _⟩
  have hmargin : (0 : ℚ) ≤ CONTACT_AREA_MARGIN := by norm_num [CONTACT_AREA_MARGIN]
  have h1 : max 0 (d - CONTACT_AREA_MARGIN) ≤ d := by
    refine max_le h0 ?_
    linarith
  have h2 : d ≤ min L (d + CONTACT_AREA_MARGIN) := by
    refine le_min hL ?_
    linarith
  linarith

/-- C1: for every call to `DataContactArea.from_lanes` in which each crossing
distance lies within `[0, lane_length]` of its lane, the constructed contact
area has `lane_1_start_pos = max 0 (d₁ - 3)` and
`lane_1_end_pos = min L₁ (d₁ + 3)` (where `d₁`, `L₁` are the crossing distance
and length of the lane stored as lane 1 after the canonicalising swap, and
symmetrically for lane 2), hence
`0 ≤ lane_1_start_pos ≤ lane_1_end_pos ≤ L₁` and likewise for lane 2. -/
theorem from_lanes_window_correct (loc : DataLocation) (lane_1 lane_2 : DataLane)
    (d1 d2 : ℚ) (h1 : 0 ≤ d1 ∧ d1 ≤ lane_1.lane_length)
    (h2 : 0 ≤ d2 ∧ d2 ≤ lane_2.lane_length) :
    let ca := DataContactArea.from_lanes loc lane_1 d1 lane_2 d2
    let e1 := if lane_2.road_id < lane_1.road_id then d2 else d1
    let e2 := if lane_2.road_id < lane_1.road_id then d1 else d2
    let L1 := if lane_2.road_id < lane_1.road_id then lane_2.lane_length else lane_1.lane_length
    let L2 := if lane_2.road_id < lane_1.road_id then lane_1.lane_length else lane_2.lane_length
    ca.lane_1_start_pos = max 0 (e1 - CONTACT_AREA_MARGIN) ∧
      ca.lane_1_end_pos = min L1 (e1 + CONTACT_AREA_MARGIN) ∧
      ca.lane_2_start_pos = max 0 (e2 - CONTACT_AREA_MARGIN) ∧
      ca.lane_2_end_pos = min L2 (e2 + CONTACT_AREA_MARGIN) ∧
      (0 ≤ ca.lane_1_start_pos ∧ ca.lane_1_start_pos ≤ ca.lane_1_end_pos ∧
        ca.lane_1_end_pos ≤ L1) ∧
      (0 ≤ ca.lane_2_start_pos ∧ ca.lane_2_start_pos ≤ ca.lane_2_end_pos ∧
        ca.lane_2_end_pos ≤ L2) := by
  intro ca e1 e2 L1 L2
  obtain ⟨h10, h1L⟩ := h1
  obtain ⟨h20, h2L⟩ := h2
  by_cases hswap : lane_2.road_id < lane_1.road_id
  · have hca : ca = DataContactArea.from_lanes loc lane_1 d1 lane_2 d2 := rfl
    simp only [ca, e1, e2, L1, L2, DataContactArea.from_lanes, if_pos hswap]
    exact ⟨trivial, trivial, trivial, trivial,
      contact_window_wf d2 lane_2.lane_length h20 h2L,
      contact_window_wf d1 lane_1.lane_length h10 h1L⟩
  · simp only [ca, e1, e2, L1, L2, DataContactArea.from_lanes, if_neg hswap]
    exact ⟨trivial, trivial, trivial, trivial,
      contact_window_wf d1 lane_1.lane_length h10 h1L,
      contact_window_wf d2 lane_2.lane_length h20 h2L⟩

/-- Witness for C1 at a concrete input: lanes with road ids 5 and 2 (so the
swap fires), lengths 20 and 10, crossing distances 19 and 1. -/
theorem from_lanes_window_correct_witness :
    ((0 : ℚ) ≤ 19 ∧ (19 : ℚ) ≤ 20) ∧ ((0 : ℚ) ≤ 1 ∧ (1 : ℚ) ≤ 10) ∧
      (let ca := DataContactArea.from_lanes ⟨0, 0, 0⟩
        ⟨5, -1, 20, [], []⟩ 19 ⟨2, 1, 10, [], []⟩ 1
       ca.lane_1_start_pos = 0 ∧ ca.lane_1_end_pos = 4 ∧
         ca.lane_2_start_pos = 16 ∧ ca.lane_2_end_pos = 20) := by
  refine ⟨⟨by norm_num, by norm_num⟩, ⟨by norm_num, by norm_num⟩, ?_⟩
  have h := from_lanes_window_correct ⟨0, 0, 0⟩ ⟨5, -1, 20, [], []⟩ ⟨2, 1, 10, [], []⟩
    19 1 ⟨by norm_num, by norm_num⟩ ⟨by norm_num, by norm_num⟩
  simp only [show ((2 : Int) < 5) = True from by norm_num, if_true] at h
  obtain ⟨hs1, he1, hs2, he2, -⟩ := h
  refine ⟨?_, ?_, ?_, ?_⟩
  · rw [hs1]; norm_num [CONTACT_AREA_MARGIN]
  · rw [he1]; norm_num [CONTACT_AREA_MARGIN]
  · rw [hs2]; norm_num [CONTACT_AREA_MARGIN]
  · rw [he2]; norm_num [CONTACT_AREA_MARGIN]

/-- C2 counterexample: when the two lanes share a road id but differ in lane
id, `from_lanes` performs no swap, so passing the lanes in the opposite order
yields a different id — the id is not order-independent as claimed. -/
theorem from_lanes_id_not_order_independent :
    (DataContactArea.from_lanes ⟨0, 0, 0⟩ ⟨0, 1, 10, [], []⟩ 1
        ⟨0, 2, 10, [], []⟩ 2).id ≠
      (DataContactArea.from_lanes ⟨0, 0, 0⟩ ⟨0, 2, 10, [], []⟩ 2
        ⟨0, 1, 10, [], []⟩ 1).id := by
  decide

/-- C2 (amended): `from_lanes` always stores the smaller road id as
`lane_1_road_id` (so `lane_1_road_id ≤ lane_2_road_id`), and whenever the two
road ids differ, swapping the order in which the two lanes (with their
crossing distances) are passed yields the same id; with equal road ids the id
depends on the argument order. -/
theorem from_lanes_id_canonical (loc loc' : DataLocation) (lane_1 lane_2 : DataLane)
    (d1 d2 : ℚ) :
    (DataContactArea.from_lanes loc lane_1 d1 lane_2 d2).lane_1_road_id ≤
        (DataContactArea.from_lanes loc lane_1 d1 lane_2 d2).lane_2_road_id ∧
      (lane_1.road_id ≠ lane_2.road_id →
        (DataContactArea.from_lanes loc lane_1 d1 lane_2 d2).id =
          (DataContactArea.from_lanes loc' lane_2 d2 lane_1 d1).id) := by
  constructor
  · by_cases hswap : lane_2.road_id < lane_1.road_id
    · simp only [DataContactArea.from_lanes, if_pos hswap]
      exact le_of_lt hswap
    · simp only [DataContactArea.from_lanes, if_neg hswap]
      exact le_of_not_lt hswap
  · intro hne
    by_cases hswap : lane_2.road_id < lane_1.road_id
    · have hswap' : ¬ lane_1.road_id < lane_2.road_id := by omega
      simp only [DataContactArea.from_lanes, if_pos hswap, if_neg hswap']
    · have hlt : lane_1.road_id < lane_2.road_id := by
        rcases lt_or_eq_of_le (le_of_not_lt hswap) with h | h
        · exact h
        · exact absurd h hne
      simp only [DataContactArea.from_lanes, if_neg hswap, if_pos hlt]

/-- Witness for C2 (amended) at a concrete input with distinct road ids. -/
theorem from_lanes_id_canonical_witness :
    ((3 : Int) ≠ 7) ∧
      (DataContactArea.from_lanes ⟨0, 0, 0⟩ ⟨3, -1, 10, [], []⟩ 1
          ⟨7, 2, 10, [], []⟩ 2).lane_1_road_id ≤
        (DataContactArea.from_lanes ⟨0, 0, 0⟩ ⟨3, -1, 10, [], []⟩ 1
          ⟨7, 2, 10, [], []⟩ 2).lane_2_road_id ∧
      (DataContactArea.from_lanes ⟨0, 0, 0⟩ ⟨3, -1, 10, [], []⟩ 1
          ⟨7, 2, 10, [], []⟩ 2).id =
        (DataContactArea.from_lanes ⟨1, 1, 1⟩ ⟨7, 2, 10, [], []⟩ 2
          ⟨3, -1, 10, [], []⟩ 1).id := by
  have h := from_lanes_id_canonical ⟨0, 0, 0⟩ ⟨1, 1, 1⟩ ⟨3, -1, 10, [], []⟩
    ⟨7, 2, 10, [], []⟩ 1 2
  exact ⟨by decide, h.1, h.2 (by decide)⟩

/-- The 3-dimensional cross product used (via `np.cross`) in `get_intersect`
of `map_rasterizer.py`; vectors are triples of rationals. -/
def cross3 (u v : ℚ × ℚ × ℚ) : ℚ × ℚ × ℚ :=
  (u.2.1 * v.2.2 - u.2.2 * v.2.1,
   u.2.2 * v.1 - u.1 * v.2.2,
   u.1 * v.2.1 - u.2.1 * v.1)

/-- `MapRasterizer.get_intersect` from `map_rasterizer.py`: maps the four
points to homogeneous coordinates (`to_tuple` keeps only x and y; a 1 is
appended), forms the two lines as cross products, intersects them with a
third cross product, returns `none` when the z component is 0 (parallel
lines) and `(x / z, y / z, 0)` otherwise. -/
def get_intersect (lane_1_start lane_1_end lane_2_start lane_2_end : DataLocation) :
    Option DataLocation :=
  let h0 : ℚ × ℚ × ℚ := (lane_1_start.x, lane_1_start.y, 1)
  let h1 : ℚ × ℚ × ℚ := (lane_1_end.x, lane_1_end.y, 1)
  let h2 : ℚ × ℚ × ℚ := (lane_2_start.x, lane_2_start.y, 1)
  let h3 : ℚ × ℚ × ℚ := (lane_2_end.x, lane_2_end.y, 1)
  let l1 := cross3 h0 h1
  let l2 := cross3 h2 h3
  let p := cross3 l1 l2
  if p.2.2 = 0 then none
  else some ⟨p.1 / p.2.2, p.2.1 / p.2.2, 0⟩

/-- The z component of the cross product of the two homogeneous line
representations in `get_intersect`. -/
def intersectZ (lane_1_start lane_1_end lane_2_start lane_2_end : DataLocation) : ℚ :=
  (cross3 (cross3 (lane_1_start.x, lane_1_start.y, 1) (lane_1_end.x, lane_1_end.y, 1))
    (cross3 (lane_2_start.x, lane_2_start.y, 1) (lane_2_end.x, lane_2_end.y, 1))).2.2

/-- A point lies on the infinite line through `a` and `b` (in the x-y plane):
the cross product of `b - a` with `p - a` vanishes. -/
def onLine (a b p : DataLocation) : Prop :=
  (b.x - a.x) * (p.y - a.y) - (b.y - a.y) * (p.x - a.x) = 0

/-- C5: `get_intersect` returns `none` exactly when the z component of the
cross product of the two homogeneous line representations is zero; whenever
that component is non-zero it returns the point `(x / z, y / z)` (with z
coordinate 0), which lies on both infinite lines. -/
theorem get_intersect_correct (a b c d : DataLocation) :
    (get_intersect a b c d = none ↔ intersectZ a b c d = 0) ∧
      (∀ p : DataLocation, get_intersect a b c d = some p →
        p.x = (cross3 (cross3 (a.x, a.y, 1) (b.x, b.y, 1))
            (cross3 (c.x, c.y, 1) (d.x, d.y, 1))).1 / intersectZ a b c d ∧
          p.y = (cross3 (cross3 (a.x, a.y, 1) (b.x, b.y, 1))
            (cross3 (c.x, c.y, 1) (d.x, d.y, 1))).2.1 / intersectZ a b c d ∧
          p.z = 0 ∧ onLine a b p ∧ onLine c d p) := by
  have hcross : get_intersect a b c d =
      if intersectZ a b c d = 0 then none
      else some ⟨(cross3 (cross3 (a.x, a.y, 1) (b.x, b.y, 1))
            (cross3 (c.x, c.y, 1) (d.x, d.y, 1))).1 / intersectZ a b c d,
          (cross3 (cross3 (a.x, a.y, 1) (b.x, b.y, 1))
            (cross3 (c.x, c.y, 1) (d.x, d.y, 1))).2.1 / intersectZ a b c d, 0⟩ := rfl
  constructor
  · rw [hcross]
    by_cases hz : intersectZ a b c d = 0
    · simp [hz]
    · simp [hz]
  · intro p hp
    rw [hcross] at hp
    by_cases hz : intersectZ a b c d = 0
    · rw [if_pos hz] at hp
      exact absurd hp (by simp)
    · rw [if_neg hz] at hp
      have hp2 := Option.some.inj hp
      subst hp2
      refine ⟨rfl, rfl, rfl, ?_, ?_⟩
      · unfold onLine
        dsimp only
        set Z := intersectZ a b c d with hZdef
        set X := (cross3 (cross3 (a.x, a.y, 1) (b.x, b.y, 1))
          (cross3 (c.x, c.y, 1) (d.x, d.y, 1))).1 with hXdef
        set Y := (cross3 (cross3 (a.x, a.y, 1) (b.x, b.y, 1))
          (cross3 (c.x, c.y, 1) (d.x, d.y, 1))).2.1 with hYdef
        have hz' : Z ≠ 0 := hz
        have key : (b.x - a.x) * (Y - a.y * Z) - (b.y - a.y) * (X - a.x * Z) = 0 := by
          rw [hXdef, hYdef, hZdef]
          simp only [intersectZ, cross3]
          ring
        field_simp [hz']
        linear_combination key
      · unfold onLine
        dsimp only
        set Z := intersectZ a b c d with hZdef
        set X := (cross3 (cross3 (a.x, a.y, 1) (b.x, b.y, 1))
          (cross3 (c.x, c.y, 1) (d.x, d.y, 1))).1 with hXdef
        set Y := (cross3 (cross3 (a.x, a.y, 1) (b.x, b.y, 1))
          (cross3 (c.x, c.y, 1) (d.x, d.y, 1))).2.1 with hYdef
        have hz' : Z ≠ 0 := hz
        have key : (d.x - c.x) * (Y - c.y * Z) - (d.y - c.y) * (X - c.x * Z) = 0 := by
          rw [hXdef, hYdef, hZdef]
          simp only [intersectZ, cross3]
          ring
        field_simp [hz']
        linear_combination key

/-- Witness for C5: two concrete crossing segments; the implication side is
instantiated at the returned point of `get_intersect`. -/
theorem get_intersect_correct_witness :
    get_intersect ⟨0, 0, 0⟩ ⟨2, 2, 0⟩ ⟨0, 2, 0⟩ ⟨2, 0, 0⟩ =
        some ⟨1, 1, 0⟩ ∧
      onLine ⟨0, 0, 0⟩ ⟨2, 2, 0⟩ ⟨1, 1, 0⟩ ∧ onLine ⟨0, 2, 0⟩ ⟨2, 0, 0⟩ ⟨1, 1, 0⟩ := by
  have heval : get_intersect ⟨0, 0, 0⟩ ⟨2, 2, 0⟩ ⟨0, 2, 0⟩ ⟨2, 0, 0⟩ =
      some ⟨1, 1, 0⟩ := by
    norm_num [get_intersect, cross3]
  have h := (get_intersect_correct ⟨0, 0, 0⟩ ⟨2, 2, 0⟩ ⟨0, 2, 0⟩ ⟨2, 0, 0⟩).2
    ⟨1, 1, 0⟩ heval
  exact ⟨heval, h.2.2.2.1, h.2.2.2.2⟩

/-- `MapRasterizer.is_between` from `map_rasterizer.py`: collinearity within
absolute tolerance 0.1, then dot-product projection within
`[0, squared_segment_length]`. -/
def is_between (from_point to_point point_to_check : DataLocation) : Bool :=
  let cross_product := (point_to_check.y - from_point.y) * (to_point.x - from_point.x) -
    (point_to_check.x - from_point.x) * (to_point.y - from_point.y)
  if |cross_product| > 1/10 then false
  else
    let dot_product := (point_to_check.x - from_point.x) * (to_point.x - from_point.x) +
      (point_to_check.y - from_point.y) * (to_point.y - from_point.y)
    if dot_product < 0 then false
    else
      let squared_length_ba := (to_point.x - from_point.x) * (to_point.x - from_point.x) +
        (to_point.y - from_point.y) * (to_point.y - from_point.y)
      if dot_product > squared_length_ba then false else true

/-- The filter `distance_to_start % 1.0 == 0` of `get_intersection_of_lanes`:
over exact rationals a value is a multiple of 1 exactly when its denominator
is 1. -/
def isRound (q : ℚ) : Bool := q.den == 1

/-- Return the first `some` produced by `f` along the list; models a Python
loop whose body either `continue`s (`none`) or `return`s a value (`some`). -/
def firstSome? {α β : Type} (f : α → Option β) : List α → Option β
  | [] => none
  | a :: l => match f a with
    | some b => some b
    | none => firstSome? f l

/-- `MapRasterizer.get_intersection_of_lanes` from `map_rasterizer.py`.
Faithful to the source, including its two quirks: the entry guard compares
`lane_1.road_id` with `lane_2.lane_id` (not lane id with lane id), and the
loop indices `index_lane_1`, `index_lane_2` enumerate the FILTERED midpoint
lists but index into the UNFILTERED `lane_midpoints` lists when the segment
endpoints are read.  `getD` with a default mirrors Python indexing; the
indices are in range whenever the branch is reached (the enumerated index is
at most the filtered length minus 1 and the guard excludes the last
unfiltered index). -/
def get_intersection_of_lanes (lane_1 lane_2 : DataLane) : Option DataLocation :=
  if lane_1.road_id = lane_2.road_id ∧ lane_1.road_id = lane_2.lane_id then none
  else
    let lane_1_midpoints := lane_1.lane_midpoints.filter (fun l => isRound l.distance_to_start)
    let lane_2_midpoints := lane_2.lane_midpoints.filter (fun l => isRound l.distance_to_start)
    firstSome? (fun index_lane_1 =>
      firstSome? (fun index_lane_2 =>
        if index_lane_1 ≠ lane_1.lane_midpoints.length - 1 ∧
            index_lane_2 ≠ lane_2.lane_midpoints.length - 1 then
          let s1 := (lane_1.lane_midpoints.getD index_lane_1 default).location
          let e1 := (lane_1.lane_midpoints.getD (index_lane_1 + 1) default).location
          let s2 := (lane_2.lane_midpoints.getD index_lane_2 default).location
          let e2 := (lane_2.lane_midpoints.getD (index_lane_2 + 1) default).location
          match get_intersect s1 e1 s2 e2 with
          | none => none
          | some crossing_point =>
            if is_between s1 e1 crossing_point && is_between s2 e2 crossing_point then
              some crossing_point
            else none
        else none)
        (List.range lane_2_midpoints.length))
      (List.range lane_1_midpoints.length)

/-- Comparison definition following the spec's words for claim C4: the
candidate segments join ADJACENT ROUND STATIONS of each lane (adjacent
elements of the filtered midpoint lists), tested with the same intersection
and acceptance predicates, first accepted crossing wins in the same nested
search order. -/
def roundStationCrossing (lane_1 lane_2 : DataLane) : Option DataLocation :=
  let lane_1_midpoints := lane_1.lane_midpoints.filter (fun l => isRound l.distance_to_start)
  let lane_2_midpoints := lane_2.lane_midpoints.filter (fun l => isRound l.distance_to_start)
  firstSome? (fun i =>
    firstSome? (fun j =>
      let s1 := (lane_1_midpoints.getD i default).location
      let e1 := (lane_1_midpoints.getD (i + 1) default).location
      let s2 := (lane_2_midpoints.getD j default).location
      let e2 := (lane_2_midpoints.getD (j + 1) default).location
      match get_intersect s1 e1 s2 e2 with
      | none => none
      | some crossing_point =>
        if is_between s1 e1 crossing_point && is_between s2 e2 crossing_point then
          some crossing_point
        else none)
      (List.range (lane_2_midpoints.length - 1)))
    (List.range (lane_1_midpoints.length - 1))

/-- A station at distance one half: not an integer multiple of the sampling
step, so it is removed by the round-station filter. -/
def halfStation : ℚ := Rat.mk' 1 2

/-- Lane for the C4 failing input: midpoints at distances 0 and 1/2 with
locations (0,0) and (5,-5). -/
def laneC4a : DataLane :=
  { road_id := 1, lane_id := -1, lane_length := 1,
    lane_midpoints :=
      [⟨-1, 1, 0, ⟨0, 0, 0⟩, default⟩, ⟨-1, 1, halfStation, ⟨5, -5, 0⟩, default⟩],
    landmarks := [] }

/-- Lane for the C4 failing input: midpoints at distances 0 and 1/2 with
locations (0,-2) and (10,-2). -/
def laneC4b : DataLane :=
  { road_id := 2, lane_id := -1, lane_length := 1,
    lane_midpoints :=
      [⟨-1, 2, 0, ⟨0, -2, 0⟩, default⟩, ⟨-1, 2, halfStation, ⟨10, -2, 0⟩, default⟩],
    landmarks := [] }

/-- C4: the claim says `get_intersection_of_lanes` tests exactly the segments
joining adjacent round stations.  The code instead tests segments joining
adjacent UNFILTERED midpoints (only the number of filtered stations bounds
the indices).  On lanes whose only round station is the first midpoint, the
code finds the crossing (2,-2) on the segment ending at the non-round
half-step station, while the search described by the claim tests no segment
at all and returns `none`. -/
theorem get_intersection_of_lanes_ignores_round_stations :
    get_intersection_of_lanes laneC4a laneC4b = some ⟨2, -2, 0⟩ ∧
      roundStationCrossing laneC4a laneC4b = none := by
  have hround0 : isRound 0 = true := rfl
  have hroundh : isRound halfStation = false := rfl
  constructor
  · norm_num [get_intersection_of_lanes, laneC4a, laneC4b, List.filter, hround0, hroundh,
      List.range, firstSome?, get_intersect, cross3, is_between, List.getD]
  · norm_num [roundStationCrossing, laneC4a, laneC4b, List.filter, hround0, hroundh,
      List.range, firstSome?]

/-- First-occurrence de-duplication: models the Python pattern
`if x not in acc: acc.append(x)` used for the junction road-id list in
`get_data_roads_for_junction` and for waypoint de-duplication in
`get_all_waypoints_for_lane`. -/
def dedupKeepFirst {α : Type} [DecidableEq α] (l : List α) : List α :=
  l.foldl (fun acc x => if x ∈ acc then acc else acc ++ [x]) []

/-- Membership in the de-duplication fold, generalised over the
accumulator. -/
theorem mem_foldl_dedup {α : Type} [DecidableEq α] (l : List α) :
    ∀ (acc : List α) (x : α),
      (x ∈ l.foldl (fun acc x => if x ∈ acc then acc else acc ++ [x]) acc ↔
        x ∈ acc ∨ x ∈ l) := by
  induction l with
  | nil => simp
  | cons a l ih =>
    intro acc x
    simp only [List.foldl_cons]
    by_cases h : a ∈ acc
    · rw [if_pos h, ih]
      simp only [List.mem_cons]
      constructor
      · rintro (hx | hx)
        · exact Or.inl hx
        · exact Or.inr (Or.inr hx)
      · rintro (hx | hx | hx)
        · exact Or.inl hx
        · exact Or.inl (hx ▸ h)
        · exact Or.inr hx
    · rw [if_neg h, ih]
      simp [List.mem_append, List.mem_cons]
      tauto

/-- De-duplication preserves the set of elements. -/
theorem mem_dedupKeepFirst {α : Type} [DecidableEq α] (l : List α) (x : α) :
    x ∈ dedupKeepFirst l ↔ x ∈ l := by
  rw [dedupKeepFirst, mem_foldl_dedup]
  simp

/-- The de-duplication fold yields a duplicate-free list when started from
one. -/
theorem nodup_foldl_dedup {α : Type} [DecidableEq α] (l : List α) :
    ∀ (acc : List α), acc.Nodup →
      (l.foldl (fun acc x => if x ∈ acc then acc else acc ++ [x]) acc).Nodup := by
  induction l with
  | nil => intro acc h; simpa using h
  | cons a l ih =>
    intro acc hacc
    simp only [List.foldl_cons]
    by_cases h : a ∈ acc
    · rw [if_pos h]; exact ih acc hacc
    · rw [if_neg h]
      refine ih (acc ++ [a]) ?_
      simp [List.nodup_append, hacc, h]

/-- The result of `dedupKeepFirst` is duplicate-free. -/
theorem nodup_dedupKeepFirst {α : Type} [DecidableEq α] (l : List α) :
    (dedupKeepFirst l).Nodup :=
  nodup_foldl_dedup l [] List.nodup_nil

/-- A waypoint sample as consumed by `get_data_blocks`: its `road_id`, its
`is_junction` flag and — when it belongs to a junction — the road ids, in
discovery order, of the driving-lane waypoints returned by
`junction.get_waypoints(LaneType.Driving)` for its junction. -/
structure SampleWP where
  road_id : Int
  is_junction : Bool
  junction_road_ids : List Int
deriving DecidableEq, Repr

/-- The membership test of the `get_data_blocks` loop: some already-built
block contains a road with this road id (`block_contains_waypoint` over all
blocks).  Blocks are modelled at road-id granularity: a block is the list of
road ids of its roads, which is all the partition property consults. -/
def blocksContain (data_blocks : List (List Int)) (road_id : Int) : Bool :=
  data_blocks.any (fun b => b.contains road_id)

/-- One iteration of the `get_data_blocks` loop: skip the waypoint when a
block already contains its road id; otherwise append one new block — for a
junction waypoint the de-duplicated road-id list of its junction (as built
by `get_data_roads_for_junction`), otherwise the singleton of its own road
id (as built by `get_data_road_for_waypoints`). -/
def processWaypoint (data_blocks : List (List Int)) (waypoint : SampleWP) :
    List (List Int) :=
  if blocksContain data_blocks waypoint.road_id then data_blocks
  else if waypoint.is_junction then
    data_blocks ++ [dedupKeepFirst waypoint.junction_road_ids]
  else data_blocks ++ [[waypoint.road_id]]

/-- `MapRasterizer.get_data_blocks` from `map_rasterizer.py`, modelled at
road-id granularity over the generated waypoint list. -/
def get_data_blocks (wps : List SampleWP) : List (List Int) :=
  wps.foldl processWaypoint []

/-- `blocksContain` holds exactly for road ids of the flattened block
list. -/
theorem blocksContain_iff (data_blocks : List (List Int)) (r : Int) :
    blocksContain data_blocks r = true ↔ r ∈ data_blocks.flatten := by
  simp [blocksContain, List.any_eq_true, List.mem_flatten]

/-- Every block built by the loop is either the singleton road of a
non-junction waypoint of the input or the de-duplicated junction road-id
list of a junction waypoint of the input. -/
def BlockOrigin (wps : List SampleWP) (b : List Int) : Prop :=
  (∃ wp ∈ wps, wp.is_junction = false ∧ b = [wp.road_id]) ∨
    (∃ wp ∈ wps, wp.is_junction = true ∧ b = dedupKeepFirst wp.junction_road_ids)

/-- Loop invariant of `get_data_blocks`: the flattened road ids are
duplicate-free and every block has a recorded origin. -/
def BlocksInv (wps : List SampleWP) (data_blocks : List (List Int)) : Prop :=
  data_blocks.flatten.Nodup ∧ ∀ b ∈ data_blocks, BlockOrigin wps b

/-- A road id present in the block list stays present after one loop
iteration. -/
theorem processWaypoint_mono (data_blocks : List (List Int)) (wp : SampleWP) (r : Int)
    (h : r ∈ data_blocks.flatten) : r ∈ (processWaypoint data_blocks wp).flatten := by
  unfold processWaypoint
  split_ifs <;> simp [List.mem_append, h]

/-- One loop iteration of `get_data_blocks` preserves the invariant and
afterwards the processed waypoint's road id is covered, provided the
junction data is coherent: each junction waypoint's own road is among its
junction's roads, junction road-id sets that share a road are equal, and no
junction road-id set contains a non-junction waypoint's road. -/
theorem processWaypoint_inv (wps : List SampleWP)
    (hself : ∀ wp ∈ wps, wp.is_junction = true → wp.road_id ∈ wp.junction_road_ids)
    (hjj : ∀ wp ∈ wps, ∀ wp2 ∈ wps, wp.is_junction = true → wp2.is_junction = true →
      ∀ r ∈ wp.junction_road_ids, r ∈ wp2.junction_road_ids →
        wp.junction_road_ids.toFinset = wp2.junction_road_ids.toFinset)
    (hjn : ∀ wp ∈ wps, ∀ wp2 ∈ wps, wp.is_junction = true → wp2.is_junction = false →
      wp2.road_id ∉ wp.junction_road_ids)
    (wp : SampleWP) (hwp : wp ∈ wps) (data_blocks : List (List Int))
    (hinv : BlocksInv wps data_blocks) :
    BlocksInv wps (processWaypoint data_blocks wp) ∧
      wp.road_id ∈ (processWaypoint data_blocks wp).flatten := by
  obtain ⟨hnodup, horigin⟩ := hinv
  by_cases hc : blocksContain data_blocks wp.road_id
  · rw [processWaypoint, if_pos hc]
    exact ⟨⟨hnodup, horigin⟩, (blocksContain_iff _ _).1 hc⟩
  · have hcmem : wp.road_id ∉ data_blocks.flatten := fun h =>
      hc ((blocksContain_iff _ _).2 h)
    by_cases hj : wp.is_junction
    · rw [processWaypoint, if_neg hc, if_pos hj]
      have hBnodup := nodup_dedupKeepFirst wp.junction_road_ids
      have hdisj : ∀ r ∈ data_blocks.flatten, r ∉ dedupKeepFirst wp.junction_road_ids := by
        intro r hr hrB
        rw [mem_dedupKeepFirst] at hrB
        rw [List.mem_flatten] at hr
        obtain ⟨b, hb, hrb⟩ := hr
        rcases horigin b hb with ⟨wp2, hwp2, hwp2nj, rfl⟩ | ⟨wp2, hwp2, hwp2j, rfl⟩
        · -- b is the singleton road of a non-junction waypoint
          simp only [List.mem_singleton] at hrb
          subst hrb
          exact hjn wp hwp wp2 hwp2 hj hwp2nj hrB
        · -- b is the road-id set of another junction waypoint
          rw [mem_dedupKeepFirst] at hrb
          have hsets := hjj wp hwp wp2 hwp2 hj hwp2j r hrB hrb
          have hself1 := hself wp hwp hj
          have hmem2 : wp.road_id ∈ wp2.junction_road_ids := by
            have := hsets ▸ (List.mem_toFinset.2 hself1)
            exact List.mem_toFinset.1 this
          refine hcmem ?_
          rw [List.mem_flatten]
          exact ⟨dedupKeepFirst wp2.junction_road_ids, hb,
            (mem_dedupKeepFirst _ _).2 hmem2⟩
      refine ⟨⟨?_, ?_⟩, ?_⟩
      · rw [List.flatten_append]
        simp only [List.flatten, List.append_nil]
        rw [List.nodup_append]
        exact ⟨hnodup, by simpa using hBnodup, fun r hr => hdisj r hr ∘ by simp⟩
      · intro b hb
        rcases List.mem_append.1 hb with hb | hb
        · exact horigin b hb
        · simp only [List.mem_singleton] at hb
          subst hb
          exact Or.inr ⟨wp, hwp, hj, rfl⟩
      · rw [List.flatten_append, List.mem_append]
        refine Or.inr ?_
        simp only [List.flatten, List.append_nil]
        exact (mem_dedupKeepFirst _ _).2 (hself wp hwp hj)
    · rw [processWaypoint, if_neg hc, if_neg hj]
      refine ⟨⟨?_, ?_⟩, ?_⟩
      · rw [List.flatten_append]
        simp only [List.flatten, List.append_nil]
        rw [List.nodup_append]
        refine ⟨hnodup, List.nodup_singleton _, ?_⟩
        intro r hr hrB
        simp only [List.mem_singleton] at hrB
        subst hrB
        exact hcmem hr
      · intro b hb
        rcases List.mem_append.1 hb with hb | hb
        · exact horigin b hb
        · simp only [List.mem_singleton] at hb
          subst hb
          exact Or.inl ⟨wp, hwp, Bool.eq_false_iff.2 hj, rfl⟩
      · rw [List.flatten_append, List.mem_append]
        simp

/-- Road ids present in the block list persist through the rest of the
fold. -/
theorem foldl_mono (sub : List SampleWP) :
    ∀ (data_blocks : List (List Int)) (r : Int), r ∈ data_blocks.flatten →
      r ∈ (sub.foldl processWaypoint data_blocks).flatten := by
  induction sub with
  | nil => intro blocks r h; simpa using h
  | cons a sub ih =>
    intro blocks r h
    simp only [List.foldl_cons]
    exact ih _ r (processWaypoint_mono blocks a r h)

/-- The invariant and coverage extend through the whole fold. -/
theorem foldl_inv (wps : List SampleWP)
    (hself : ∀ wp ∈ wps, wp.is_junction = true → wp.road_id ∈ wp.junction_road_ids)
    (hjj : ∀ wp ∈ wps, ∀ wp2 ∈ wps, wp.is_junction = true → wp2.is_junction = true →
      ∀ r ∈ wp.junction_road_ids, r ∈ wp2.junction_road_ids →
        wp.junction_road_ids.toFinset = wp2.junction_road_ids.toFinset)
    (hjn : ∀ wp ∈ wps, ∀ wp2 ∈ wps, wp.is_junction = true → wp2.is_junction = false →
      wp2.road_id ∉ wp.junction_road_ids) :
    ∀ (sub : List SampleWP), (∀ w ∈ sub, w ∈ wps) →
      ∀ (data_blocks : List (List Int)), BlocksInv wps data_blocks →
        BlocksInv wps (sub.foldl processWaypoint data_blocks) ∧
          ∀ w ∈ sub, w.road_id ∈ (sub.foldl processWaypoint data_blocks).flatten := by
  intro sub
  induction sub with
  | nil => intro _ blocks hinv; exact ⟨hinv, by simp⟩
  | cons a sub ih =>
    intro hsub blocks hinv
    have ha : a ∈ wps := hsub a (List.mem_cons_self a sub)
    have hstep := processWaypoint_inv wps hself hjj hjn a ha blocks hinv
    have hrest := ih (fun w hw => hsub w (List.mem_cons_of_mem a hw)) _ hstep.1
    refine ⟨hrest.1, ?_⟩
    intro w hw
    rcases List.mem_cons.1 hw with rfl | hw
    · exact foldl_mono sub _ _ hstep.2
    · exact hrest.2 w hw

/-- C3 counterexample: two junction waypoints whose junction road-id sets
overlap without being equal.  `get_data_blocks` builds two blocks that both
contain road 1, so the blocks do not partition the road ids — the claim
fails for this input sample set. -/
theorem get_data_blocks_duplicates_shared_junction_road :
    get_data_blocks [⟨0, true, [0, 1]⟩, ⟨2, true, [2, 1]⟩] = [[0, 1], [2, 1]] ∧
      ¬ ([[0, 1], [2, 1]] : List (List Int)).flatten.Nodup := by
  decide

/-- C3 (amended): provided the junction data of the sample set is coherent —
each junction waypoint's road id is among its junction's road ids, junction
road-id sets that share a road id are equal as sets, and no junction road-id
set contains the road id of a non-junction waypoint — the blocks returned by
`get_data_blocks` partition the sampled road ids: no road id occurs in two
blocks (or twice in one block), and every sampled waypoint's road id occurs
in some block. -/
theorem get_data_blocks_partitions (wps : List SampleWP)
    (hself : ∀ wp ∈ wps, wp.is_junction = true → wp.road_id ∈ wp.junction_road_ids)
    (hjj : ∀ wp ∈ wps, ∀ wp2 ∈ wps, wp.is_junction = true → wp2.is_junction = true →
      ∀ r ∈ wp.junction_road_ids, r ∈ wp2.junction_road_ids →
        wp.junction_road_ids.toFinset = wp2.junction_road_ids.toFinset)
    (hjn : ∀ wp ∈ wps, ∀ wp2 ∈ wps, wp.is_junction = true → wp2.is_junction = false →
      wp2.road_id ∉ wp.junction_road_ids) :
    (get_data_blocks wps).flatten.Nodup ∧
      ∀ wp ∈ wps, wp.road_id ∈ (get_data_blocks wps).flatten := by
  have h := foldl_inv wps hself hjj hjn wps (fun w hw => hw) []
    ⟨List.nodup_nil, by simp⟩
  exact ⟨h.1.1, h.2⟩

/-- Witness for C3 (amended): a non-junction road and a coherent junction. -/
theorem get_data_blocks_partitions_witness :
    (get_data_blocks [⟨10, false, []⟩, ⟨0, true, [0, 1]⟩]).flatten.Nodup ∧
      ∀ wp ∈ [(⟨10, false, []⟩ : SampleWP), ⟨0, true, [0, 1]⟩],
        wp.road_id ∈ (get_data_blocks [⟨10, false, []⟩, ⟨0, true, [0, 1]⟩]).flatten :=
  get_data_blocks_partitions _ (by decide) (by decide) (by decide)

/-- A CARLA `Landmark` record as consumed by `add_landmarks_to_lanes`,
restricted to the fields the code consults: `id`, `road_id`, the
longitudinal offset `s` and the validity intervals returned by
`get_lane_validities()`. -/
structure Landmark where
  id : Int
  road_id : Int
  s : ℚ
  lane_validities : List (Int × Int)
deriving DecidableEq, Repr

/-- `MapRasterizer.get_data_landmark_for_landmark`, restricted to the
modelled fields: a field-by-field copy. -/
def get_data_landmark_for_landmark (landmark : Landmark) : DataLandmark :=
  ⟨landmark.id, landmark.road_id, landmark.s⟩

/-- `MapRasterizer.is_lane_valid_for_landmark` from `map_rasterizer.py`: the
lane id lies inside some validity interval, bounds inclusive. -/
def is_lane_valid_for_landmark (landmark : Landmark) (data_lane : DataLane) : Bool :=
  landmark.lane_validities.any (fun tupl => tupl.1 ≤ data_lane.lane_id && data_lane.lane_id ≤ tupl.2)

/-- `MapRasterizer.get_specific_road_from_blocks` from `map_rasterizer.py`:
the first road with the given road id, scanning blocks in order and roads
within each block in order. -/
def get_specific_road_from_blocks (blocks : List DataBlock) (road_id : Int) :
    Option DataRoad :=
  blocks.findSome? (fun block => block.roads.find? (fun road => road.road_id == road_id))

/-- The final value of the shared mutable `data_landmark.s` after the lane
loop of `add_landmarks_to_lanes`: Python appends ONE `DataLandmark` object
to every valid lane and, after each append to a lane with positive lane id,
executes `data_landmark.s = lane.lane_length - data_landmark.s` on that same
object — so every lane that holds the reference observes the value after the
whole loop, i.e. this left fold over the road's lanes. -/
def finalLandmarkS (landmark : Landmark) (road : DataRoad) : ℚ :=
  road.lanes.foldl
    (fun s lane =>
      if is_lane_valid_for_landmark landmark lane && decide (0 < lane.lane_id) then
        lane.lane_length - s
      else s)
    landmark.s

/-- The per-landmark lane loop of `add_landmarks_to_lanes` on the road found
for the landmark: append the converted landmark to every valid lane; the
stored `s` is the final value of the shared mutable record (see
`finalLandmarkS`). -/
def attachLandmarkToRoad (landmark : Landmark) (road : DataRoad) : DataRoad :=
  let fs := finalLandmarkS landmark road
  { road with
    lanes := road.lanes.map (fun lane =>
      if is_lane_valid_for_landmark landmark lane then
        { lane with landmarks := lane.landmarks ++ [⟨landmark.id, landmark.road_id, fs⟩] }
      else lane) }

/-- Whether a road list holds a road with the given id. -/
def roadsContain (roads : List DataRoad) (road_id : Int) : Bool :=
  roads.any (fun road => road.road_id == road_id)

/-- Replace the first road with the given id (the road
`get_specific_road_from_blocks` aliases) by its updated version. -/
def updateFirstRoad (road_id : Int) (f : DataRoad → DataRoad) :
    List DataRoad → List DataRoad
  | [] => []
  | road :: rest =>
    if road.road_id = road_id then f road :: rest
    else road :: updateFirstRoad road_id f rest

/-- In-place mutation of the first matching road inside the block list,
modelled functionally. -/
def updateFirstRoadInBlocks (road_id : Int) (f : DataRoad → DataRoad) :
    List DataBlock → List DataBlock
  | [] => []
  | block :: rest =>
    if roadsContain block.roads road_id then
      ⟨updateFirstRoad road_id f block.roads⟩ :: rest
    else block :: updateFirstRoadInBlocks road_id f rest

/-- `MapRasterizer.add_landmarks_to_lanes` from `map_rasterizer.py`.
Faithful to the source control flow: when a landmark's road id is absent
from the blocks the method executes `return` — not `continue` — so the
remaining landmarks of the list are dropped and the blocks built so far are
the final state. -/
def add_landmarks_to_lanes : List Landmark → List DataBlock → List DataBlock
  | [], data_blocks => data_blocks
  | landmark :: rest, data_blocks =>
    match get_specific_road_from_blocks data_blocks landmark.road_id with
    | none => data_blocks
    | some _ =>
      add_landmarks_to_lanes rest
        (updateFirstRoadInBlocks landmark.road_id (attachLandmarkToRoad landmark) data_blocks)

-- C6 evaluation: early return drops the remaining landmarks
/-- C6: `add_landmarks_to_lanes` executes `return` — not `continue` — when a
landmark's road id is absent from the graph.  Landmark 7 references the
absent road 99, so landmark 8, whose road 1 IS present and whose validity
interval covers the lane, is never attached: the blocks come back
unchanged, contradicting the claim that only the unresolvable landmark is
omitted. -/
theorem add_landmarks_to_lanes_aborts_on_missing_road :
    add_landmarks_to_lanes
        [⟨7, 99, 0, [(1, 1)]⟩, ⟨8, 1, 2, [(1, 1)]⟩]
        [⟨[⟨1, [⟨1, 1, 10, [], []⟩]⟩]⟩] =
      [⟨[⟨1, [⟨1, 1, 10, [], []⟩]⟩]⟩] ∧
      (get_specific_road_from_blocks [⟨[⟨1, [⟨1, 1, 10, [], []⟩]⟩]⟩] 1).isSome = true ∧
      is_lane_valid_for_landmark ⟨8, 1, 2, [(1, 1)]⟩ ⟨1, 1, 10, [], []⟩ = true := by
  decide

-- C8 evaluation: shared mutable landmark, two positive lanes
/-- C8: the `s`-flip for positive lane ids mutates the single shared
landmark record AFTER each append.  A landmark with `s = 2` valid for lanes
1 (length 10) and 2 (length 20) is attached to both lanes, and both lanes
observe the doubly flipped `s = 20 - (10 - 2) = 12` — not `10 - 2 = 8` on
lane 1 and `20 - 2 = 18` on lane 2 as the claim requires. -/
theorem add_landmarks_to_lanes_compounds_positive_flip :
    add_landmarks_to_lanes [⟨5, 2, 2, [(1, 2)]⟩]
        [⟨[⟨2, [⟨2, 1, 10, [], []⟩, ⟨2, 2, 20, [], []⟩]⟩]⟩] =
      [⟨[⟨2, [⟨2, 1, 10, [], [⟨5, 2, 12⟩]⟩, ⟨2, 2, 20, [], [⟨5, 2, 12⟩]⟩]⟩]⟩] := by
  norm_num [add_landmarks_to_lanes, get_specific_road_from_blocks, updateFirstRoadInBlocks,
    updateFirstRoad, attachLandmarkToRoad, finalLandmarkS, roadsContain,
    is_lane_valid_for_landmark, List.findSome?, List.find?, List.foldl, List.any]

/-- All roads of a block list, in traversal order. -/
def roadsOfBlocks (blocks : List DataBlock) : List DataRoad :=
  (blocks.map DataBlock.roads).flatten

/-- The ids of the landmarks attached to a lane. -/
def laneLandmarkIds (l : DataLane) : List Int := l.landmarks.map DataLandmark.id

/-- The identifying `(road_id, lane_id)` pair of a lane. -/
def laneKey (l : DataLane) : Int × Int := (l.road_id, l.lane_id)

/-- The effect of one landmark on one road: attach when the road ids
match, otherwise leave the road unchanged. -/
def stepRoad (lm : Landmark) (r : DataRoad) : DataRoad :=
  if r.road_id = lm.road_id then attachLandmarkToRoad lm r else r

/-- The cumulative effect of a landmark list on a single road. -/
def roadFold (lms : List Landmark) (r : DataRoad) : DataRoad :=
  lms.foldl (fun r lm => stepRoad lm r) r

theorem valid_lane_update (lm : Landmark) (l : DataLane) (lmk : List DataLandmark) :
    is_lane_valid_for_landmark lm { l with landmarks := lmk } =
      is_lane_valid_for_landmark lm l := rfl

theorem attach_road_id (lm : Landmark) (r : DataRoad) :
    (attachLandmarkToRoad lm r).road_id = r.road_id := rfl

theorem stepRoad_road_id (lm : Landmark) (r : DataRoad) :
    (stepRoad lm r).road_id = r.road_id := by
  unfold stepRoad
  split_ifs <;> rfl

theorem attach_ids (lm : Landmark) (r : DataRoad) :
    (attachLandmarkToRoad lm r).lanes.map laneLandmarkIds =
      r.lanes.map (fun l => laneLandmarkIds l ++
        if is_lane_valid_for_landmark lm l then [lm.id] else []) := by
  simp only [attachLandmarkToRoad, List.map_map]
  apply List.map_congr_left
  intro l _
  by_cases h : is_lane_valid_for_landmark lm l
  · simp [h, laneLandmarkIds]
  · simp [h, laneLandmarkIds]

theorem attach_key (lm : Landmark) (r : DataRoad) :
    (attachLandmarkToRoad lm r).lanes.map laneKey = r.lanes.map laneKey := by
  simp only [attachLandmarkToRoad, List.map_map]
  apply List.map_congr_left
  intro l _
  by_cases h : is_lane_valid_for_landmark lm l
  · simp [h, laneKey]
  · simp [h, laneKey]

theorem roadFold_road_id (lms : List Landmark) :
    ∀ (r : DataRoad), (roadFold lms r).road_id = r.road_id := by
  induction lms with
  | nil => intro r; rfl
  | cons lm rest ih =>
    intro r
    rw [roadFold, List.foldl_cons]
    exact (ih (stepRoad lm r)).trans (stepRoad_road_id lm r)

theorem roadFold_key (lms : List Landmark) :
    ∀ (r : DataRoad), (roadFold lms r).lanes.map laneKey = r.lanes.map laneKey := by
  induction lms with
  | nil => intro r; rfl
  | cons lm rest ih =>
    intro r
    rw [roadFold, List.foldl_cons]
    have h1 := ih (stepRoad lm r)
    rw [roadFold] at h1
    rw [h1]
    unfold stepRoad
    split_ifs
    · exact attach_key lm r
    · rfl

theorem roadFold_ids (lms : List Landmark) :
    ∀ (r : DataRoad), (roadFold lms r).lanes.map laneLandmarkIds =
      r.lanes.map (fun l => laneLandmarkIds l ++
        (lms.filter (fun lm => r.road_id == lm.road_id &&
          is_lane_valid_for_landmark lm l)).map Landmark.id) := by
  induction lms with
  | nil => intro r; simp [roadFold]
  | cons lm rest ih =>
    intro r
    rw [roadFold, List.foldl_cons]
    have h1 := ih (stepRoad lm r)
    rw [roadFold] at h1
    rw [h1]
    by_cases hrid : r.road_id = lm.road_id
    · rw [show stepRoad lm r = attachLandmarkToRoad lm r from if_pos hrid]
      simp only [attachLandmarkToRoad, List.map_map]
      apply List.map_congr_left
      intro l _
      simp only [Function.comp_apply]
      have hbeq : (r.road_id == lm.road_id) = true := by
        exact beq_iff_eq.2 hrid
      by_cases hv : is_lane_valid_for_landmark lm l
      · simp only [hv, if_true, List.filter_cons, hbeq, Bool.true_and, hv,
          valid_lane_update, laneLandmarkIds, List.map_append, List.map_cons,
          List.map_nil, List.append_assoc, List.singleton_append]
      · simp only [hv, if_false, List.filter_cons, hbeq, Bool.true_and,
          Bool.false_eq_true, laneLandmarkIds]
    · rw [show stepRoad lm r = r from if_neg hrid]
      apply List.map_congr_left
      intro l _
      have hbeq : (r.road_id == lm.road_id) = false := by
        exact beq_eq_false_iff_ne.2 hrid
      simp [List.filter_cons, hbeq]

theorem updateFirstRoad_append_of_contains (road_id : Int) (f : DataRoad → DataRoad)
    (l1 : List DataRoad) (h : roadsContain l1 road_id = true) (l2 : List DataRoad) :
    updateFirstRoad road_id f (l1 ++ l2) =
      updateFirstRoad road_id f l1 ++ l2 := by
  induction l1 with
  | nil => simp [roadsContain] at h
  | cons r rest ih =>
    by_cases hr : r.road_id = road_id
    · simp [updateFirstRoad, hr]
    · have hrest : roadsContain rest road_id = true := by
        simp only [roadsContain, List.any_cons, Bool.or_eq_true] at h
        rcases h with h | h
        · exact absurd (beq_iff_eq.1 h) hr
        · exact h
      simp [updateFirstRoad, hr, ih hrest]

theorem updateFirstRoad_append_of_not_contains (road_id : Int) (f : DataRoad → DataRoad)
    (l1 : List DataRoad) (h : roadsContain l1 road_id = false) (l2 : List DataRoad) :
    updateFirstRoad road_id f (l1 ++ l2) =
      l1 ++ updateFirstRoad road_id f l2 := by
  induction l1 with
  | nil => simp
  | cons r rest ih =>
    simp only [roadsContain, List.any_cons, Bool.or_eq_false_iff] at h
    have hr : ¬ r.road_id = road_id := fun hh => by simp [hh] at h
    have hrest : roadsContain rest road_id = false := by
      simp [roadsContain, h.2]
    simp [updateFirstRoad, hr, ih hrest]

theorem roadsOf_updateFirstRoadInBlocks (road_id : Int) (f : DataRoad → DataRoad) :
    ∀ (blocks : List DataBlock),
      roadsOfBlocks (updateFirstRoadInBlocks road_id f blocks) =
        updateFirstRoad road_id f (roadsOfBlocks blocks) := by
  intro blocks
  induction blocks with
  | nil => rfl
  | cons b rest ih =>
    by_cases hb : roadsContain b.roads road_id
    · rw [updateFirstRoadInBlocks, if_pos hb]
      show updateFirstRoad road_id f b.roads ++ roadsOfBlocks rest =
        updateFirstRoad road_id f (b.roads ++ roadsOfBlocks rest)
      rw [updateFirstRoad_append_of_contains road_id f b.roads hb]
    · rw [updateFirstRoadInBlocks, if_neg hb]
      show b.roads ++ roadsOfBlocks (updateFirstRoadInBlocks road_id f rest) =
        updateFirstRoad road_id f (b.roads ++ roadsOfBlocks rest)
      rw [ih, updateFirstRoad_append_of_not_contains road_id f b.roads
        (Bool.eq_false_iff.2 hb)]

theorem map_id_of_no_match (road_id : Int) (f : DataRoad → DataRoad)
    (l : List DataRoad) (h : ∀ r ∈ l, r.road_id ≠ road_id) :
    l.map (fun r => if r.road_id = road_id then f r else r) = l := by
  induction l with
  | nil => rfl
  | cons r rest ih =>
    have hr := h r (List.mem_cons_self r rest)
    rw [List.map_cons, if_neg hr, ih (fun r2 h2 => h r2 (List.mem_cons_of_mem r h2))]

theorem updateFirstRoad_eq_map (road_id : Int) (f : DataRoad → DataRoad)
    (l : List DataRoad) (h : (l.map DataRoad.road_id).Nodup) :
    updateFirstRoad road_id f l =
      l.map (fun r => if r.road_id = road_id then f r else r) := by
  induction l with
  | nil => rfl
  | cons r rest ih =>
    simp only [List.map_cons, List.nodup_cons] at h
    by_cases hr : r.road_id = road_id
    · rw [updateFirstRoad, if_pos hr, List.map_cons, if_pos hr]
      have hnone : ∀ r2 ∈ rest, r2.road_id ≠ road_id := by
        intro r2 h2 hh
        exact h.1 (hr ▸ hh ▸ List.mem_map_of_mem DataRoad.road_id h2)
      rw [map_id_of_no_match road_id f rest hnone]
    · rw [updateFirstRoad, if_neg hr, List.map_cons, if_neg hr, ih h.2]

theorem get_specific_road_none_iff (road_id : Int) :
    ∀ (blocks : List DataBlock),
      (get_specific_road_from_blocks blocks road_id = none ↔
        roadsContain (roadsOfBlocks blocks) road_id = false) := by
  intro blocks
  induction blocks with
  | nil => simp [get_specific_road_from_blocks, roadsOfBlocks, roadsContain]
  | cons b rest ih =>
    cases hfind : b.roads.find? (fun road => road.road_id == road_id) with
    | some r =>
      have hsome : get_specific_road_from_blocks (b :: rest) road_id = some r := by
        rw [get_specific_road_from_blocks, List.findSome?_cons, hfind]
      rw [hsome]
      have hmem := List.find?_some hfind
      have hrmem := List.mem_of_find?_eq_some hfind
      have hcont : roadsContain (roadsOfBlocks (b :: rest)) road_id = true := by
        simp only [roadsOfBlocks, List.map_cons, List.flatten_cons, roadsContain,
          List.any_eq_true]
        exact ⟨r, List.mem_append.2 (Or.inl hrmem), hmem⟩
      rw [hcont]
      simp
    | none =>
      have hnone : get_specific_road_from_blocks (b :: rest) road_id =
          get_specific_road_from_blocks rest road_id := by
        rw [get_specific_road_from_blocks, List.findSome?_cons, hfind]
        rfl
      rw [hnone, ih]
      have hb : (b.roads.any fun road => road.road_id == road_id) = false := by
        rw [List.find?_eq_none] at hfind
        simp only [List.any_eq_false]
        intro r hr
        exact hfind r hr
      simp only [roadsOfBlocks, List.map_cons, List.flatten_cons, roadsContain,
        List.any_append, hb, Bool.false_or]

theorem roadsContain_map_step (lm : Landmark) (l : List DataRoad) (road_id : Int) :
    roadsContain (l.map (stepRoad lm)) road_id = roadsContain l road_id := by
  induction l with
  | nil => rfl
  | cons r rest ih =>
    simp only [List.map_cons, roadsContain, List.any_cons, stepRoad_road_id]
    rw [show (List.any (List.map (stepRoad lm) rest) fun road => road.road_id == road_id) =
      roadsContain (List.map (stepRoad lm) rest) road_id from rfl, ih]
    rfl

theorem map_roadIds_map_step (lm : Landmark) (l : List DataRoad) :
    (l.map (stepRoad lm)).map DataRoad.road_id = l.map DataRoad.road_id := by
  rw [List.map_map]
  apply List.map_congr_left
  intro r _
  exact stepRoad_road_id lm r

theorem roads_of_add_landmarks (lms : List Landmark) :
    ∀ (blocks : List DataBlock),
      (∀ lm ∈ lms, roadsContain (roadsOfBlocks blocks) lm.road_id = true) →
      ((roadsOfBlocks blocks).map DataRoad.road_id).Nodup →
      roadsOfBlocks (add_landmarks_to_lanes lms blocks) =
        (roadsOfBlocks blocks).map (roadFold lms) := by
  induction lms with
  | nil =>
    intro blocks _ _
    have hfold : List.map (roadFold []) (roadsOfBlocks blocks) = roadsOfBlocks blocks := by
      have hid : ∀ r, roadFold [] r = r := fun r => rfl
      calc List.map (roadFold []) (roadsOfBlocks blocks)
          = List.map id (roadsOfBlocks blocks) := List.map_congr_left (fun r _ => hid r)
        _ = roadsOfBlocks blocks := List.map_id _
    rw [add_landmarks_to_lanes, hfold]
  | cons lm rest ih =>
    intro blocks hres hnodup
    have hlm : roadsContain (roadsOfBlocks blocks) lm.road_id = true :=
      hres lm (List.mem_cons_self lm rest)
    rw [add_landmarks_to_lanes]
    cases hgs : get_specific_road_from_blocks blocks lm.road_id with
    | none =>
      rw [(get_specific_road_none_iff lm.road_id blocks).1 hgs] at hlm
      exact absurd hlm (by simp)
    | some r0 =>
      simp only
      have hroads' : roadsOfBlocks (updateFirstRoadInBlocks lm.road_id
          (attachLandmarkToRoad lm) blocks) =
          (roadsOfBlocks blocks).map (stepRoad lm) := by
        rw [roadsOf_updateFirstRoadInBlocks,
          updateFirstRoad_eq_map lm.road_id _ _ hnodup]
        rfl
      have hres' : ∀ lm2 ∈ rest, roadsContain (roadsOfBlocks
          (updateFirstRoadInBlocks lm.road_id (attachLandmarkToRoad lm) blocks))
          lm2.road_id = true := by
        intro lm2 h2
        rw [hroads', roadsContain_map_step]
        exact hres lm2 (List.mem_cons_of_mem lm h2)
      have hnodup' : ((roadsOfBlocks (updateFirstRoadInBlocks lm.road_id
          (attachLandmarkToRoad lm) blocks)).map DataRoad.road_id).Nodup := by
        rw [hroads', map_roadIds_map_step]
        exact hnodup
      rw [ih _ hres' hnodup', hroads', List.map_map]
      apply List.map_congr_left
      intro r _
      simp only [Function.comp_apply]
      rfl

/-- C7 (amended): provided every landmark in the list resolves to a road of
the graph (ruling out the early-return of C6), road ids are unique across
blocks, each lane's `road_id` agrees with its road, landmark lists start
empty and landmark ids are distinct, `add_landmarks_to_lanes` attaches a
landmark to a lane if and only if the lane belongs to the landmark's road
and the lane's `lane_id` lies inside some declared validity interval
(bounds inclusive). -/
theorem add_landmarks_attaches_iff (lms : List Landmark) (blocks : List DataBlock)
    (hres : ∀ lm ∈ lms, roadsContain (roadsOfBlocks blocks) lm.road_id = true)
    (hnodup : ((roadsOfBlocks blocks).map DataRoad.road_id).Nodup)
    (hconsist : ∀ r ∈ roadsOfBlocks blocks, ∀ l ∈ r.lanes, l.road_id = r.road_id)
    (hempty : ∀ r ∈ roadsOfBlocks blocks, ∀ l ∈ r.lanes, l.landmarks = [])
    (hids : (lms.map Landmark.id).Nodup) :
    ∀ r ∈ roadsOfBlocks (add_landmarks_to_lanes lms blocks), ∀ l ∈ r.lanes, ∀ lm ∈ lms,
      ((∃ dl ∈ l.landmarks, dl.id = lm.id) ↔
        (l.road_id = lm.road_id ∧ is_lane_valid_for_landmark lm l = true)) := by
  intro r' hr' l' hl' lm hlm
  rw [roads_of_add_landmarks lms blocks hres hnodup] at hr'
  obtain ⟨r0, hr0, rfl⟩ := List.mem_map.1 hr'
  have hkeys := roadFold_key lms r0
  have hidsmap := roadFold_ids lms r0
  obtain ⟨i, hi, hil⟩ := List.mem_iff_getElem.1 hl'
  have hlen : (roadFold lms r0).lanes.length = r0.lanes.length := by
    have h := congrArg List.length hkeys
    simpa using h
  have hi0 : i < r0.lanes.length := hlen ▸ hi
  have hA : (roadFold lms r0).lanes[i]? = some l' := by
    rw [List.getElem?_eq_getElem hi, hil]
  have hB : r0.lanes[i]? = some r0.lanes[i] := List.getElem?_eq_getElem hi0
  have hkey : laneKey l' = laneKey r0.lanes[i] := by
    have h := congrArg (fun t => t[i]?) hkeys
    simp only [List.getElem?_map, hA, hB, Option.map_some'] at h
    exact Option.some.inj h
  have hidseq : laneLandmarkIds l' = laneLandmarkIds r0.lanes[i] ++
      (lms.filter (fun lm2 => r0.road_id == lm2.road_id &&
        is_lane_valid_for_landmark lm2 r0.lanes[i])).map Landmark.id := by
    have h := congrArg (fun t => t[i]?) hidsmap
    simp only [List.getElem?_map, hA, hB, Option.map_some'] at h
    exact Option.some.inj h
  have hl0mem : r0.lanes[i] ∈ r0.lanes := List.getElem_mem hi0
  have hl0empty : r0.lanes[i].landmarks = [] := hempty r0 hr0 _ hl0mem
  have hids0 : laneLandmarkIds r0.lanes[i] = [] := by
    simp [laneLandmarkIds, hl0empty]
  have hl0road : r0.lanes[i].road_id = r0.road_id := hconsist r0 hr0 _ hl0mem
  have hroadeq : l'.road_id = r0.lanes[i].road_id := congrArg Prod.fst hkey
  have hlaneeq : l'.lane_id = r0.lanes[i].lane_id := congrArg Prod.snd hkey
  have hvalid : is_lane_valid_for_landmark lm l' =
      is_lane_valid_for_landmark lm r0.lanes[i] := by
    unfold is_lane_valid_for_landmark
    rw [hlaneeq]
  constructor
  · rintro ⟨dl, hdl, hdlid⟩
    have hidmem : lm.id ∈ laneLandmarkIds l' :=
      List.mem_map.2 ⟨dl, hdl, hdlid⟩
    rw [hidseq, hids0, List.nil_append] at hidmem
    obtain ⟨lm2, hlm2f, hlm2id⟩ := List.mem_map.1 hidmem
    have hlm2mem : lm2 ∈ lms := List.mem_of_mem_filter hlm2f
    have hlm2eq : lm2 = lm := List.inj_on_of_nodup_map hids hlm2mem hlm hlm2id
    subst hlm2eq
    have hcond := List.of_mem_filter hlm2f
    rw [Bool.and_eq_true] at hcond
    refine ⟨?_, ?_⟩
    · rw [hroadeq, hl0road]
      exact beq_iff_eq.1 hcond.1
    · rw [hvalid]
      exact hcond.2
  · rintro ⟨hroad, hv⟩
    have hcond : (r0.road_id == lm.road_id &&
        is_lane_valid_for_landmark lm r0.lanes[i]) = true := by
      rw [Bool.and_eq_true]
      refine ⟨beq_iff_eq.2 ?_, ?_⟩
      · rw [← hl0road, ← hroadeq]
        exact hroad
      · rw [← hvalid]
        exact hv
    have hmemf : lm ∈ lms.filter (fun lm2 => r0.road_id == lm2.road_id &&
        is_lane_valid_for_landmark lm2 r0.lanes[i]) :=
      List.mem_filter.2 ⟨hlm, hcond⟩
    have hidmem : lm.id ∈ laneLandmarkIds l' := by
      rw [hidseq, hids0, List.nil_append]
      exact List.mem_map_of_mem Landmark.id hmemf
    obtain ⟨dl, hdl, hdlid⟩ := List.mem_map.1 hidmem
    exact ⟨dl, hdl, hdlid⟩

/-- C7 counterexample: landmark 21 references the absent road 50, which makes
`add_landmarks_to_lanes` return early; landmark 22's road 3 is present in
the graph and the lane with id -1 lies inside its validity interval, yet the
lane's landmark list stays empty — the claim's "if and only if" fails at
this input. -/
theorem add_landmarks_to_lanes_drops_later_valid_landmark :
    add_landmarks_to_lanes [⟨21, 50, 0, [(-1, -1)]⟩, ⟨22, 3, 1, [(-1, -1)]⟩]
        [⟨[⟨3, [⟨3, -1, 7, [], []⟩]⟩]⟩] = [⟨[⟨3, [⟨3, -1, 7, [], []⟩]⟩]⟩] ∧
      roadsContain (roadsOfBlocks [⟨[⟨3, [⟨3, -1, 7, [], []⟩]⟩]⟩]) 3 = true ∧
      is_lane_valid_for_landmark ⟨22, 3, 1, [(-1, -1)]⟩ ⟨3, -1, 7, [], []⟩ = true := by
  decide

/-- Witness for C7 (amended) at the claim's example scenario: a landmark
with validity interval (-2, -1) on a road with lanes -3, -2, -1, 1 attaches
exactly to lanes -2 and -1; instantiated at the resulting lane -2. -/
theorem add_landmarks_attaches_iff_witness :
    (∃ dl ∈ (⟨4, -2, 10, [], [⟨9, 4, 3⟩]⟩ : DataLane).landmarks, dl.id = (9 : Int)) ↔
      ((⟨4, -2, 10, [], [⟨9, 4, 3⟩]⟩ : DataLane).road_id = 4 ∧
        is_lane_valid_for_landmark ⟨9, 4, 3, [(-2, -1)]⟩
          ⟨4, -2, 10, [], [⟨9, 4, 3⟩]⟩ = true) :=
  add_landmarks_attaches_iff [⟨9, 4, 3, [(-2, -1)]⟩]
    [⟨[⟨4, [⟨4, -3, 10, [], []⟩, ⟨4, -2, 10, [], []⟩,
      ⟨4, -1, 10, [], []⟩, ⟨4, 1, 10, [], []⟩]⟩]⟩]
    (by decide) (by decide) (by decide) (by decide) (by decide)
    ⟨4, [⟨4, -3, 10, [], []⟩, ⟨4, -2, 10, [], [⟨9, 4, 3⟩]⟩,
      ⟨4, -1, 10, [], [⟨9, 4, 3⟩]⟩, ⟨4, 1, 10, [], []⟩]⟩ (by decide)
    ⟨4, -2, 10, [], [⟨9, 4, 3⟩]⟩ (by decide)
    ⟨9, 4, 3, [(-2, -1)]⟩ (by decide)

/-- `MapRasterizer.get_all_waypoints_for_lane` from `map_rasterizer.py`.  The
two walking loops call the external stepping primitive (`waypoint.next` and
`waypoint.previous`); their outputs are parameters here.  The function
reverses the backward walk, concatenates backward walk, reference waypoint
and forward walk, de-duplicates keeping first occurrences, and assigns
element i the distance `precision * i`. -/
def get_all_waypoints_for_lane {α : Type} [DecidableEq α]
    (waypoints_until_start : List α) (lane : α) (waypoints_until_end : List α)
    (precision : ℚ) : List (ℚ × α) :=
  let all_waypoints := waypoints_until_start.reverse ++ [lane] ++ waypoints_until_end
  let unique_waypoints := dedupKeepFirst all_waypoints
  unique_waypoints.enum.map (fun iw => (precision * iw.1, iw.2))

/-- `MapRasterizer.get_length_of_lane` from `map_rasterizer.py`: the distance
of the last walked waypoint plus one more precision step.  The indexed list
is never empty (it contains the reference waypoint), so the Python index
`[len - 1]` never faults; `getD` supplies an unreachable default. -/
def get_length_of_lane {α : Type} [DecidableEq α]
    (waypoints_until_start : List α) (lane : α) (waypoints_until_end : List α)
    (precision : ℚ) : ℚ :=
  let all_waypoints := get_all_waypoints_for_lane waypoints_until_start lane
    waypoints_until_end precision
  (all_waypoints.getD (all_waypoints.length - 1) (0, lane)).1 + precision

/-- The walked list has one entry per de-duplicated waypoint. -/
theorem get_all_waypoints_length {α : Type} [DecidableEq α]
    (ws we : List α) (lane : α) (p : ℚ) :
    (get_all_waypoints_for_lane ws lane we p).length =
      (dedupKeepFirst (ws.reverse ++ [lane] ++ we)).length := by
  simp [get_all_waypoints_for_lane]

/-- The walked list is never empty: it contains the reference waypoint. -/
theorem get_all_waypoints_length_pos {α : Type} [DecidableEq α]
    (ws we : List α) (lane : α) (p : ℚ) :
    0 < (get_all_waypoints_for_lane ws lane we p).length := by
  rw [get_all_waypoints_length]
  apply List.length_pos.2
  intro hnil
  have hlane : lane ∈ dedupKeepFirst (ws.reverse ++ [lane] ++ we) :=
    (mem_dedupKeepFirst _ _).2 (by simp)
  rw [hnil] at hlane
  exact absurd hlane (List.not_mem_nil lane)

/-- Element i of the walked list carries distance `precision * i`. -/
theorem get_all_waypoints_fst {α : Type} [DecidableEq α]
    (ws we : List α) (lane : α) (p : ℚ) (i : ℕ)
    (h : i < (get_all_waypoints_for_lane ws lane we p).length) :
    ((get_all_waypoints_for_lane ws lane we p)[i]).1 = p * i := by
  have h2 : i < (dedupKeepFirst (ws.reverse ++ [lane] ++ we)).length := by
    rw [← get_all_waypoints_length ws we lane p]
    exact h
  simp [get_all_waypoints_for_lane, List.getElem_map, List.getElem_enum]

/-- `get_length_of_lane` equals the de-duplicated waypoint count times the
precision. -/
theorem get_length_of_lane_eq {α : Type} [DecidableEq α]
    (ws we : List α) (lane : α) (p : ℚ) :
    get_length_of_lane ws lane we p =
      (dedupKeepFirst (ws.reverse ++ [lane] ++ we)).length * p := by
  have hpos := get_all_waypoints_length_pos ws we lane p
  have hlt : (get_all_waypoints_for_lane ws lane we p).length - 1 <
      (get_all_waypoints_for_lane ws lane we p).length := by omega
  rw [get_length_of_lane, List.getD_eq_getElem _ _ hlt,
    get_all_waypoints_fst ws we lane p _ hlt, get_all_waypoints_length]
  have h1 : 1 ≤ (dedupKeepFirst (ws.reverse ++ [lane] ++ we)).length := by
    rw [← get_all_waypoints_length ws we lane p]
    exact hpos
  have hcast : ((((dedupKeepFirst (ws.reverse ++ [lane] ++ we)).length - 1 : ℕ)) : ℚ) =
      ((dedupKeepFirst (ws.reverse ++ [lane] ++ we)).length : ℚ) - 1 := by
    push_cast [Nat.cast_sub h1]
    ring
  rw [hcast]
  ring

/-- The lane-building fragment of `MapRasterizer.get_data_lane_for_waypoint`
the verified property consults: `lane_length` comes from a walk at the
default precision 2.0 and `lane_midpoints` from a walk at precision 0.1,
each midpoint copying the distance from the walked pair. -/
def get_data_lane_for_waypoint {α : Type} [DecidableEq α]
    (road_id lane_id : Int) (loc : α → DataLocation) (rot : α → DataRotation)
    (wsL weL wsM weM : List α) (lane : α) : DataLane :=
  { road_id := road_id
    lane_id := lane_id
    lane_length := get_length_of_lane wsL lane weL 2
    lane_midpoints := (get_all_waypoints_for_lane wsM lane weM (1/10)).map
      (fun dw => ⟨lane_id, road_id, dw.1, loc dw.2, rot dw.2⟩)
    landmarks := [] }

/-- C9: at step precision p > 0 the sequence returned by
`get_all_waypoints_for_lane` assigns element i the distance `p * i` —
distances start at 0 and strictly increase — and `get_length_of_lane`
returns `count * p` where count is the number of de-duplicated walked
waypoints.  Consequently the constructed `DataLane` has `lane_midpoints`
strictly increasing in `distance_to_start` starting from 0, its midpoint
count times the sampling precision 0.1 equals the last midpoint distance
plus one step, and `lane_length` equals the 2.0-walk count times 2.0. -/
theorem lane_walk_distances {α : Type} [DecidableEq α]
    (ws we wsL weL wsM weM : List α) (lane : α) (road_id lane_id : Int)
    (loc : α → DataLocation) (rot : α → DataRotation) (p : ℚ) (hp : 0 < p) :
    (∀ (i : ℕ) (h : i < (get_all_waypoints_for_lane ws lane we p).length),
        ((get_all_waypoints_for_lane ws lane we p)[i]).1 = p * i) ∧
      (∀ (h0 : 0 < (get_all_waypoints_for_lane ws lane we p).length),
        ((get_all_waypoints_for_lane ws lane we p)[0]).1 = 0) ∧
      (∀ (i j : ℕ) (hij : i < j)
        (hj : j < (get_all_waypoints_for_lane ws lane we p).length),
        ((get_all_waypoints_for_lane ws lane we p).get ⟨i, Nat.lt_trans hij hj⟩).1 <
          ((get_all_waypoints_for_lane ws lane we p)[j]).1) ∧
      get_length_of_lane ws lane we p =
        (dedupKeepFirst (ws.reverse ++ [lane] ++ we)).length * p ∧
      (let dl := get_data_lane_for_waypoint road_id lane_id loc rot wsL weL wsM weM lane;
        (∀ (i j : ℕ) (hij : i < j) (hj : j < dl.lane_midpoints.length),
          (dl.lane_midpoints.get ⟨i, Nat.lt_trans hij hj⟩).distance_to_start <
            (dl.lane_midpoints[j]).distance_to_start) ∧
        (∀ (h0 : 0 < dl.lane_midpoints.length),
          (dl.lane_midpoints[0]).distance_to_start = 0) ∧
        (dl.lane_midpoints.length : ℚ) * (1/10) =
          (dl.lane_midpoints.getD (dl.lane_midpoints.length - 1)
            default).distance_to_start + 1/10 ∧
        dl.lane_length = (dedupKeepFirst (wsL.reverse ++ [lane] ++ weL)).length * 2) := by
  have hfst := get_all_waypoints_fst ws we lane p
  have hmono : ∀ (ws2 we2 : List α) (q : ℚ), 0 < q → ∀ (i j : ℕ) (hij : i < j)
      (hj : j < (get_all_waypoints_for_lane ws2 lane we2 q).length),
      ((get_all_waypoints_for_lane ws2 lane we2 q).get ⟨i, Nat.lt_trans hij hj⟩).1 <
        ((get_all_waypoints_for_lane ws2 lane we2 q)[j]).1 := by
    intro ws2 we2 q hq i j hij hj
    rw [List.get_eq_getElem]
    rw [get_all_waypoints_fst ws2 we2 lane q j hj,
      get_all_waypoints_fst ws2 we2 lane q i (Nat.lt_trans hij hj)]
    have hcast : (i : ℚ) < (j : ℚ) := by exact_mod_cast hij
    exact mul_lt_mul_of_pos_left hcast hq
  refine ⟨hfst, ?_, hmono ws we p hp, get_length_of_lane_eq ws we lane p, ?_, ?_, ?_, ?_⟩
  · intro h0
    rw [hfst 0 h0]
    simp
  · intro i j hij hj
    have hjm : j < (get_all_waypoints_for_lane wsM lane weM (1/10)).length := by
      have hlen : (get_data_lane_for_waypoint road_id lane_id loc rot wsL weL wsM weM
          lane).lane_midpoints.length =
          (get_all_waypoints_for_lane wsM lane weM (1/10)).length := by
        simp [get_data_lane_for_waypoint]
      rw [hlen] at hj
      exact hj
    rw [List.get_eq_getElem]
    simp only [get_data_lane_for_waypoint, List.getElem_map]
    have hres := hmono wsM weM (1/10) (by norm_num) i j hij hjm
    rw [List.get_eq_getElem] at hres
    exact hres
  · intro h0
    have h0m : 0 < (get_all_waypoints_for_lane wsM lane weM (1/10)).length :=
      get_all_waypoints_length_pos wsM weM lane (1/10)
    simp only [get_data_lane_for_waypoint, List.getElem_map]
    rw [get_all_waypoints_fst wsM weM lane (1/10) 0 h0m]
    simp
  · have hlen : (get_data_lane_for_waypoint road_id lane_id loc rot wsL weL wsM weM
        lane).lane_midpoints.length =
        (get_all_waypoints_for_lane wsM lane weM (1/10)).length := by
      simp [get_data_lane_for_waypoint]
    have hpos := get_all_waypoints_length_pos wsM weM lane (1/10)
    have hlt : (get_all_waypoints_for_lane wsM lane weM (1/10)).length - 1 <
        (get_all_waypoints_for_lane wsM lane weM (1/10)).length := by omega
    have hltm : (get_data_lane_for_waypoint road_id lane_id loc rot wsL weL wsM weM
        lane).lane_midpoints.length - 1 <
        (get_data_lane_for_waypoint road_id lane_id loc rot wsL weL wsM weM
          lane).lane_midpoints.length := by
      rw [hlen]
      exact hlt
    rw [List.getD_eq_getElem _ _ hltm]
    simp only [get_data_lane_for_waypoint, List.getElem_map, List.length_map]
    rw [get_all_waypoints_fst wsM weM lane (1/10) _ hlt, get_all_waypoints_length]
    have h1 : 1 ≤ (dedupKeepFirst (wsM.reverse ++ [lane] ++ weM)).length := by
      rw [← get_all_waypoints_length wsM weM lane (1/10)]
      exact hpos
    have hcast : ((((dedupKeepFirst (wsM.reverse ++ [lane] ++ weM)).length - 1 : ℕ)) : ℚ) =
        ((dedupKeepFirst (wsM.reverse ++ [lane] ++ weM)).length : ℚ) - 1 := by
      push_cast [Nat.cast_sub h1]
      ring
    rw [hcast]
    ring
  · show get_length_of_lane wsL lane weL 2 = _
    exact get_length_of_lane_eq wsL weL lane 2

/-- Witness for C9 at a concrete walk over integer waypoint handles. -/
theorem lane_walk_distances_witness :
    ((0 : ℚ) < 2) ∧
      ((∀ (i : ℕ) (h : i < (get_all_waypoints_for_lane [10, 20] (0 : Int) [30] 2).length),
          ((get_all_waypoints_for_lane [10, 20] (0 : Int) [30] 2)[i]).1 = 2 * i) ∧
        (∀ (h0 : 0 < (get_all_waypoints_for_lane [10, 20] (0 : Int) [30] 2).length),
          ((get_all_waypoints_for_lane [10, 20] (0 : Int) [30] 2)[0]).1 = 0) ∧
        (∀ (i j : ℕ) (hij : i < j)
          (hj : j < (get_all_waypoints_for_lane [10, 20] (0 : Int) [30] 2).length),
          ((get_all_waypoints_for_lane [10, 20] (0 : Int) [30] 2).get ⟨i, Nat.lt_trans hij hj⟩).1 <
            ((get_all_waypoints_for_lane [10, 20] (0 : Int) [30] 2)[j]).1) ∧
        get_length_of_lane [10, 20] (0 : Int) [30] 2 =
          (dedupKeepFirst ([10, 20].reverse ++ [0] ++ [30])).length * 2 ∧
        (let dl := get_data_lane_for_waypoint 1 (-1) (fun _ => default) (fun _ => default)
          [10, 20] [30] [10, 20] [30] (0 : Int);
          (∀ (i j : ℕ) (hij : i < j) (hj : j < dl.lane_midpoints.length),
            (dl.lane_midpoints.get ⟨i, Nat.lt_trans hij hj⟩).distance_to_start <
              (dl.lane_midpoints[j]).distance_to_start) ∧
          (∀ (h0 : 0 < dl.lane_midpoints.length),
            (dl.lane_midpoints[0]).distance_to_start = 0) ∧
          (dl.lane_midpoints.length : ℚ) * (1/10) =
            (dl.lane_midpoints.getD (dl.lane_midpoints.length - 1)
              default).distance_to_start + 1/10 ∧
          dl.lane_length = (dedupKeepFirst ([10, 20].reverse ++ [0] ++ [30])).length * 2)) :=
  ⟨by norm_num, lane_walk_distances ([10, 20] : List Int) [30] [10, 20] [30] [10, 20] [30]
    0 1 (-1) (fun _ => default) (fun _ => default) 2 (by norm_num)⟩

/-- `MapRasterizer.save_data_blocks` from `map_rasterizer.py`: raises a
`RuntimeError` when the block list is empty, otherwise hands the blocks to
the JSON writer; the `Except` value models raise versus write — on the
error branch nothing is written. -/
def save_data_blocks {α : Type} (blocks : List α) : Except String (List α) :=
  if blocks.length = 0 then
    Except.error "The blocks have not yet been calculated. Use method get_data_blocks"
  else Except.ok blocks

/-- `MapRasterizer.is_actor_in_block` from `map_rasterizer.py`: some road of
the block matches the actor's road id and holds a lane matching the actor's
lane id.  The actor is represented by the `(road_id, lane_id)` of the
waypoint the map service resolves for its location. -/
def is_actor_in_block (actor_road_id actor_lane_id : Int) (block : DataBlock) : Bool :=
  block.roads.any (fun road => road.road_id == actor_road_id &&
    road.lanes.any (fun lane => lane.lane_id == actor_lane_id))

/-- `MapRasterizer.get_best_block_for_actor` from `map_rasterizer.py`: raises
a `RuntimeError` when the block list is empty, otherwise returns the first
block containing the actor, or `none`. -/
def get_best_block_for_actor (blocks : List DataBlock)
    (actor_road_id actor_lane_id : Int) : Except String (Option DataBlock) :=
  if blocks.length = 0 then
    Except.error "The blocks for the current map have to be calculated first! Use the method get_data_blocks()"
  else Except.ok (blocks.find? (is_actor_in_block actor_road_id actor_lane_id))

/-- One `get_data_blocks` iteration never shortens the block list. -/
theorem length_le_foldl_processWaypoint (sub : List SampleWP) :
    ∀ (data_blocks : List (List Int)),
      data_blocks.length ≤ (sub.foldl processWaypoint data_blocks).length := by
  induction sub with
  | nil => intro blocks; simp
  | cons a sub ih =>
    intro blocks
    simp only [List.foldl_cons]
    refine le_trans ?_ (ih (processWaypoint blocks a))
    unfold processWaypoint
    split_ifs <;> simp

/-- A non-empty sample set yields a non-empty block list. -/
theorem get_data_blocks_ne_nil (wps : List SampleWP) (h : wps ≠ []) :
    get_data_blocks wps ≠ [] := by
  cases wps with
  | nil => exact absurd rfl h
  | cons w rest =>
    rw [get_data_blocks, List.foldl_cons]
    have h1 : 1 ≤ (processWaypoint [] w).length := by
      unfold processWaypoint blocksContain
      split_ifs with hc hj
      · simp at hc
      · simp
      · simp
    have h2 := length_le_foldl_processWaypoint rest (processWaypoint [] w)
    intro hnil
    rw [hnil] at h2
    simp only [List.length_nil, Nat.le_zero] at h2
    omega

/-- C10 counterexample: with an empty waypoint sample set, `get_data_blocks`
computes an empty block list, after which `save_data_blocks` and
`get_best_block_for_actor` still raise — "once blocks have been computed,
neither operation raises this error" fails. -/
theorem save_data_blocks_raises_after_empty_computation :
    get_data_blocks [] = [] ∧
      save_data_blocks (get_data_blocks []) =
        Except.error "The blocks have not yet been calculated. Use method get_data_blocks" ∧
      get_best_block_for_actor [] 0 0 =
        Except.error "The blocks for the current map have to be calculated first! Use the method get_data_blocks()" :=
  ⟨rfl, rfl, rfl⟩

/-- C10 (amended): `save_data_blocks` raises exactly when the block list is
empty (and then writes nothing), `get_best_block_for_actor` raises under
exactly the same condition, and computing blocks from a NON-EMPTY sample set
yields a non-empty list, after which neither operation raises.  (With an
empty sample set the computed list is empty and both still raise.) -/
theorem save_and_best_block_raise_iff_empty {α : Type} (blocks : List α)
    (data_blocks : List DataBlock) (actor_road_id actor_lane_id : Int)
    (wps : List SampleWP) :
    ((∃ e, save_data_blocks blocks = Except.error e) ↔ blocks = []) ∧
      ((∃ e, get_best_block_for_actor data_blocks actor_road_id actor_lane_id =
          Except.error e) ↔ data_blocks = []) ∧
      (wps ≠ [] → get_data_blocks wps ≠ []) := by
  refine ⟨?_, ?_, get_data_blocks_ne_nil wps⟩
  · unfold save_data_blocks
    by_cases h : blocks.length = 0
    · rw [if_pos h]
      simp [List.length_eq_zero.1 h, List.length_eq_zero.2]
    · rw [if_neg h]
      constructor
      · rintro ⟨e, he⟩
        exact absurd he (by simp)
      · intro hnil
        rw [hnil] at h
        simp at h
  · unfold get_best_block_for_actor
    by_cases h : data_blocks.length = 0
    · rw [if_pos h]
      simp [List.length_eq_zero.1 h, List.length_eq_zero.2]
    · rw [if_neg h]
      constructor
      · rintro ⟨e, he⟩
        exact absurd he (by simp)
      · intro hnil
        rw [hnil] at h
        simp at h

/-- Witness for C10 (amended) at concrete non-empty inputs. -/
theorem save_and_best_block_raise_iff_empty_witness :
    (((∃ e, save_data_blocks ([5] : List Int) = Except.error e) ↔
        ([5] : List Int) = []) ∧
      ((∃ e, get_best_block_for_actor [⟨[]⟩] 0 0 = Except.error e) ↔
        ([(⟨[]⟩ : DataBlock)]) = []) ∧
      (([⟨0, false, []⟩] : List SampleWP) ≠ [] →
        get_data_blocks [⟨0, false, []⟩] ≠ [])) ∧
      get_data_blocks [⟨0, false, []⟩] ≠ [] := by
  have h := save_and_best_block_raise_iff_empty ([5] : List Int) [⟨[]⟩] 0 0
    [⟨0, false, []⟩]
  exact ⟨h, h.2.2 (by decide)⟩
